import Mathlib

/-!
# Verification of the port-manager core (`src/main.rs`, `src/config.rs`)

Shallow embedding of the port-process registry and session state machine of
the `port-manager` repository, together with proofs about its claimed
properties.

Modelling conventions:
* `u16`/`u32` ports and pids become `Nat` (the code only compares them; no
  arithmetic that could overflow occurs in the modelled fragment).
* Rust `String` becomes Lean `String`; Rust's `String::contains` (substring
  containment) is modelled as `List.IsInfix` on the character lists, which is
  case-sensitive exactly like the source.
* External effects (the `lsof` scan, the `kill` command, config-file writes)
  are inputs to each transition: a scan is an `Except Unit (List PortProcess)`
  holding the bindings parsed from `lsof` output in discovery order, a kill
  outcome is a `Bool`, a persistence outcome is a `Bool`.  Each top-level
  session operation additionally reports which effects it actually performed
  (`Effects`), so "no kill / no save / no refresh happened" is expressible.
* Rust's `Vec::sort_by_key` is a stable sort; it is modelled by a stable
  insertion sort (`sortByPort`), which agrees with every stable
  sort-by-port-key on all inputs.
* `anyhow::Error` outcomes are modelled by the typed `AppError`; `?`
  propagation is explicit in each definition.
-/

/-- `src/main.rs` `struct PortProcess`: a process bound to a listening port. -/
structure PortProcess where
  pid : Nat
  name : String
  port : Nat
  command : String
deriving DecidableEq, Repr

/-- `src/config.rs` `struct Config`. -/
structure Config where
  min_port : Nat
  max_port : Nat
  filtered_process_names : List String
deriving DecidableEq, Repr

/-- `src/main.rs` `enum View`. -/
inductive View where
  | ProcessList
  | FilterManagement
deriving DecidableEq, Repr

/-- `src/main.rs` `struct App`: the session state. -/
structure App where
  port_processes : List PortProcess
  selected_idx : Option Nat
  should_quit : Bool
  config : Config
  current_view : View
  filter_selected_idx : Option Nat
  show_add_filter_popup : Bool
  add_filter_input : String
deriving DecidableEq, Repr

/-- Typed failure outcomes of the session operations (`anyhow::Error` values
produced by `get_port_processes`, `kill_process` and `Config::save`). -/
inductive AppError where
  | scanFailure
  | killFailure
  | persistFailure
deriving DecidableEq, Repr

instance {ε α : Type} [DecidableEq ε] [DecidableEq α] : DecidableEq (Except ε α) := by
  intro x y
  cases x <;> cases y
  case error.error a b =>
    exact if h : a = b then .isTrue (by rw [h]) else .isFalse (by simp [h])
  case error.ok a b => exact .isFalse (by simp)
  case ok.error a b => exact .isFalse (by simp)
  case ok.ok a b =>
    exact if h : a = b then .isTrue (by rw [h]) else .isFalse (by simp [h])

/-- External effects actually performed by one session operation:
pids passed to the `kill` command, number of config-file write attempts,
number of `lsof` scans performed. -/
structure Effects where
  kills : List Nat
  saves : Nat
  scans : Nat
deriving DecidableEq, Repr

/-- No external effect. -/
def Effects.nil : Effects := ⟨[], 0, 0⟩

/-- Result of a session operation: the session state afterwards (also after a
propagated failure, since Rust's `?` leaves `&mut self` as already mutated),
the `Result` value returned, and the external effects performed. -/
structure Outcome where
  app : App
  result : Except AppError Unit
  effects : Effects
deriving DecidableEq, Repr

/-- `App::new` (`src/main.rs` lines 55–66), with the `Config::load()` result
taken as a parameter. -/
def App.new (c : Config) : App where
  port_processes := []
  selected_idx := none
  should_quit := false
  config := c
  current_view := .ProcessList
  filter_selected_idx := none
  show_add_filter_popup := false
  add_filter_input := ""

/-- The retention predicate of `App::refresh_processes` (`src/main.rs` lines
74–85): the port is within the configured range and no configured filter name
is a (case-sensitive) substring of the process name, exactly as
`process.name.contains(filtered)`. -/
def filterKeep (c : Config) (p : PortProcess) : Bool :=
  (decide (c.min_port ≤ p.port) && decide (p.port ≤ c.max_port)) &&
    !(c.filtered_process_names.any fun filtered =>
        decide (filtered.toList <:+: p.name.toList))

/-- Stable insertion by `port` key: the new element goes in front of the first
element whose port is ≥ its own, so earlier-discovered elements with an equal
port stay in front. -/
def insertByPort (x : PortProcess) : List PortProcess → List PortProcess
  | [] => [x]
  | y :: ys => if x.port ≤ y.port then x :: y :: ys else y :: insertByPort x ys

/-- Stable sort ascending by `port`.  Models `port_processes.sort_by_key(|p|
p.port)` (`src/main.rs` line 291): Rust's `sort_by_key` is stable, and every
stable sort by the same key computes the same list. -/
def sortByPort (l : List PortProcess) : List PortProcess :=
  l.foldr insertByPort []

/-- `get_port_processes` (`src/main.rs` lines 235–294) with the bindings
parsed from the `lsof` output (in discovery order) taken as input: the only
transformation the function applies to them is the stable sort by port. -/
def get_port_processes (raw : List PortProcess) : List PortProcess :=
  sortByPort raw

/-- The successful branch of `App::refresh_processes` (`src/main.rs` lines
69–99): rebuild `port_processes` from the scan through the filter, then set a
selection to `Some(0)` only where it was `None` and the corresponding list is
non-empty. -/
def refreshApp (raw : List PortProcess) (a : App) : App :=
  let a1 := { a with port_processes := (get_port_processes raw).filter (filterKeep a.config) }
  let a2 := if !a1.port_processes.isEmpty && a1.selected_idx.isNone
            then { a1 with selected_idx := some 0 } else a1
  if !a2.config.filtered_process_names.isEmpty && a2.filter_selected_idx.isNone
  then { a2 with filter_selected_idx := some 0 } else a2

/-- `App::refresh_processes` (`src/main.rs` lines 69–99).  A failing
`get_port_processes` call propagates through `?` before any field of `self`
is assigned. -/
def refresh_processes (scan : Except Unit (List PortProcess)) (a : App) :
    Except AppError App :=
  match scan with
  | .error _ => .error .scanFailure
  | .ok raw => .ok (refreshApp raw a)

/-- `Config::add_filtered_process` (`src/config.rs` lines 75–81), with the
`save()` call recorded as the returned flag (`true` iff a config write was
attempted). -/
def add_filtered_process (c : Config) (process_name : String) : Config × Bool :=
  if process_name ∈ c.filtered_process_names then (c, false)
  else ({ c with filtered_process_names := c.filtered_process_names ++ [process_name] },
        true)

/-- `Config::remove_filtered_process` (`src/config.rs` lines 84–87): `retain`
keeps exactly the entries not value-equal to `process_name`.  The `save()`
call is accounted for at the call site. -/
def remove_filtered_process (c : Config) (process_name : String) : Config :=
  { c with filtered_process_names := c.filtered_process_names.filter fun n => n != process_name }

/-- `App::toggle_add_filter_popup` (`src/main.rs` lines 110–115). -/
def toggle_add_filter_popup (a : App) : App :=
  let a1 := { a with show_add_filter_popup := !a.show_add_filter_popup }
  if !a1.show_add_filter_popup then { a1 with add_filter_input := "" } else a1

/-- `App::add_char_to_filter` (`src/main.rs` lines 118–120). -/
def add_char_to_filter (a : App) (c : Char) : App :=
  { a with add_filter_input := a.add_filter_input.push c }

/-- `App::delete_char_from_filter` (`src/main.rs` lines 123–125). -/
def delete_char_from_filter (a : App) : App :=
  { a with add_filter_input := (a.add_filter_input.toList.dropLast).asString }

/-- Typing a whole string into the popup, one `add_char_to_filter` per
character. -/
def typeString (s : String) (a : App) : App :=
  s.toList.foldl add_char_to_filter a

/-- The "Adjust selection if needed" block of `App::kill_selected`
(`src/main.rs` lines 201–206): clear the selection if the refreshed list is
empty, clamp it to the last index if the captured index fell off the end,
otherwise leave it alone. -/
def repairSel (selected : Nat) (a1 : App) : App :=
  if a1.port_processes.isEmpty then { a1 with selected_idx := none }
  else if a1.port_processes.length ≤ selected then
    { a1 with selected_idx := some (a1.port_processes.length - 1) }
  else a1

/-- The "Adjust selection if needed" block of the `FilterManagement` branch of
`App::kill_selected` (`src/main.rs` lines 217–222), applied to the filter-name
list. -/
def repairFilterSel (selected : Nat) (a1 : App) : App :=
  if a1.config.filtered_process_names.isEmpty then
    { a1 with filter_selected_idx := none }
  else if a1.config.filtered_process_names.length ≤ selected then
    { a1 with filter_selected_idx := some (a1.config.filtered_process_names.length - 1) }
  else a1

/-- `App::kill_selected` (`src/main.rs` lines 191–231).  `killOk` is the exit
status of the `kill` command, `saveOk` of the config write inside
`remove_filtered_process`; `scan` feeds the embedded
`refresh_processes` call. -/
def kill_selected (scan : Except Unit (List PortProcess)) (killOk : Bool)
    (saveOk : Bool) (a : App) : Outcome :=
  match a.current_view with
  | .ProcessList =>
    match a.selected_idx with
    | none => ⟨a, .ok (), Effects.nil⟩
    | some selected =>
      match a.port_processes[selected]? with
      | none => ⟨a, .ok (), Effects.nil⟩
      | some process =>
        if killOk then
          match refresh_processes scan a with
          | .error e => ⟨a, .error e, ⟨[process.pid], 0, 1⟩⟩
          | .ok a1 => ⟨repairSel selected a1, .ok (), ⟨[process.pid], 0, 1⟩⟩
        else ⟨a, .error .killFailure, ⟨[process.pid], 0, 0⟩⟩
  | .FilterManagement =>
    match a.filter_selected_idx with
    | none => ⟨a, .ok (), Effects.nil⟩
    | some selected =>
      match a.config.filtered_process_names[selected]? with
      | none => ⟨a, .ok (), Effects.nil⟩
      | some filter_name =>
        let a1 := { a with config := remove_filtered_process a.config filter_name }
        if saveOk then
          let a2 := repairFilterSel selected a1
          match refresh_processes scan a2 with
          | .error e => ⟨a2, .error e, ⟨[], 1, 1⟩⟩
          | .ok a3 => ⟨a3, .ok (), ⟨[], 1, 1⟩⟩
        else ⟨a1, .error .persistFailure, ⟨[], 1, 0⟩⟩

/-- `App::filter_selected_process` (`src/main.rs` lines 139–148). -/
def filter_selected_process (scan : Except Unit (List PortProcess))
    (saveOk : Bool) (a : App) : Outcome :=
  match a.selected_idx with
  | none => ⟨a, .ok (), Effects.nil⟩
  | some selected =>
    match a.port_processes[selected]? with
    | none => ⟨a, .ok (), Effects.nil⟩
    | some process =>
      let c1 := (add_filtered_process a.config process.name).1
      let didSave := (add_filtered_process a.config process.name).2
      let a1 := { a with config := c1 }
      if didSave && !saveOk then ⟨a1, .error .persistFailure, ⟨[], 1, 0⟩⟩
      else
        match refresh_processes scan a1 with
        | .error e => ⟨a1, .error e, ⟨[], if didSave then 1 else 0, 1⟩⟩
        | .ok a2 => ⟨a2, .ok (), ⟨[], if didSave then 1 else 0, 1⟩⟩

/-- Rust's `str::trim`: drop leading and trailing whitespace.  (Modelled at
the character-list level so that it evaluates inside the kernel; Lean's own
`String.trim` computes the same string.) -/
def strTrim (s : String) : String :=
  (((s.toList.dropWhile Char.isWhitespace).reverse.dropWhile Char.isWhitespace).reverse).asString

/-- `App::save_filter` (`src/main.rs` lines 128–136).  The `if
!filter.is_empty()` is rendered as an `if filter = "" then … else …` with the
branches swapped. -/
def save_filter (scan : Except Unit (List PortProcess)) (saveOk : Bool)
    (a : App) : Outcome :=
  let filter := strTrim a.add_filter_input
  if filter = "" then ⟨toggle_add_filter_popup a, .ok (), Effects.nil⟩
  else
    let c1 := (add_filtered_process a.config filter).1
    let didSave := (add_filtered_process a.config filter).2
    let a1 := { a with config := c1 }
    if didSave && !saveOk then ⟨a1, .error .persistFailure, ⟨[], 1, 0⟩⟩
    else
      match refresh_processes scan a1 with
      | .error e => ⟨a1, .error e, ⟨[], if didSave then 1 else 0, 1⟩⟩
      | .ok a2 => ⟨toggle_add_filter_popup a2, .ok (), ⟨[], if didSave then 1 else 0, 1⟩⟩

/-- One of the three transitions of the claims.  `KillSelected` and
`RemoveSelectedFilter` are both `App::kill_selected`, which dispatches on
`current_view` (`ProcessList` → kill, `FilterManagement` → remove filter). -/
inductive Step where
  | refresh (scan : Except Unit (List PortProcess))
  | killSelected (scan : Except Unit (List PortProcess)) (killOk : Bool) (saveOk : Bool)
deriving Repr

/-- The session state after one transition (the state survives a propagated
failure: Rust's `?` does not roll `&mut self` back). -/
def applyStep (s : Step) (a : App) : App :=
  match s with
  | .refresh scan =>
    match refresh_processes scan a with
    | .error _ => a
    | .ok a1 => a1
  | .killSelected scan killOk saveOk => (kill_selected scan killOk saveOk a).app

/-- The session state after a sequence of transitions. -/
def applySteps (steps : List Step) (a : App) : App :=
  steps.foldl (fun st s => applyStep s st) a

/-- One transition as seen by `run_app`'s `?` operator: a failing operation
aborts with the typed failure. -/
def stepExcept (s : Step) (a : App) : Except AppError App :=
  match s with
  | .refresh scan => refresh_processes scan a
  | .killSelected scan killOk saveOk =>
    match kill_selected scan killOk saveOk a with
    | ⟨a1, .ok (), _⟩ => .ok a1
    | ⟨_, .error e, _⟩ => .error e

/-- The event loop of `run_app` (`src/main.rs` lines 577–663) restricted to
the modelled intents: transitions run one at a time and the first propagated
failure aborts the whole loop (each intent handler is called with `?`). -/
def runSteps (steps : List Step) (a : App) : Except AppError App :=
  match steps with
  | [] => .ok a
  | s :: rest =>
    match stepExcept s a with
    | .error e => .error e
    | .ok a1 => runSteps rest a1

/-! ### Concrete fixtures used by witnesses and counterexamples -/

/-- A config with the default port range and no name filters. -/
def cfg0 : Config := ⟨1024, 49151, []⟩

/-- A single in-range binding. -/
def pb1 : PortProcess := ⟨1, "node", 3000, "node server.js"⟩

/-- Five in-range bindings on distinct ports. -/
def fiveProcs : List PortProcess :=
  [⟨1, "p0", 3000, ""⟩, ⟨2, "p1", 3001, ""⟩, ⟨3, "p2", 3002, ""⟩,
   ⟨4, "p3", 3003, ""⟩, ⟨5, "p4", 3004, ""⟩]

/-- The first four of `fiveProcs`: a scan in which the killed process is gone. -/
def fourProcs : List PortProcess := fiveProcs.take 4

/-- Bindings exercising the substring filter: an excluded name is a proper
substring of the first name and a case variant of the second. -/
def bindB : PortProcess := ⟨10, "MyBrowserHelper", 2000, ""⟩

/-- A binding whose name differs from an excluded entry only by case. -/
def bindb : PortProcess := ⟨11, "browser", 2001, ""⟩

/-- A config that excludes the name `"Browser"`. -/
def cfgB : Config := ⟨1024, 49151, ["Browser"]⟩

/-- Session showing one process with it selected. -/
def appOne : App := { App.new cfg0 with port_processes := [pb1], selected_idx := some 0 }

/-- Session with five processes and the last selected (tail-shrink example). -/
def appFive : App := { App.new cfg0 with port_processes := fiveProcs, selected_idx := some 4 }

/-- Session with an out-of-range selection over a one-element list. -/
def appStale : App := { App.new cfg0 with port_processes := [pb1], selected_idx := some 5 }

/-- Filter-management session whose filter list holds a duplicated name. -/
def appDupFilters : App :=
  { App.new ⟨1024, 49151, ["node", "x", "node"]⟩ with
    current_view := .FilterManagement, filter_selected_idx := some 0 }

/-- Session with the add-filter popup open on the input `" node "`. -/
def appPopup : App :=
  { App.new cfg0 with show_add_filter_popup := true, add_filter_input := " node " }

/-- Session with three processes and the third selected. -/
def appThree : App :=
  { App.new cfg0 with port_processes := fiveProcs.take 3, selected_idx := some 2 }

/-- A scan result that is out of order and has two bindings on the same port
(pids 2 and 4 both on port 3000, pid 2 discovered first). -/
def mixedRaw : List PortProcess :=
  [⟨1, "a", 4000, ""⟩, ⟨2, "b", 3000, ""⟩, ⟨3, "c", 9999, ""⟩,
   ⟨4, "d", 3000, ""⟩, ⟨5, "e", 80, ""⟩]

/-- The order `sortByPort` sorts by. -/
def portLE (x y : PortProcess) : Prop := x.port ≤ y.port

/-- The claimed selection invariant, weakened to the direction the code
maintains: a non-empty list always carries a `some` selection (equivalently,
a `none` selection implies an empty list). -/
def SelGood (a : App) : Prop :=
  (a.port_processes.isEmpty = false → a.selected_idx.isNone = false) ∧
  (a.config.filtered_process_names.isEmpty = false → a.filter_selected_idx.isNone = false)

/-- A selection index that does not address an element of its list: `none`,
or an index at or past the end. -/
def selectionInvalid (sel : Option Nat) (len : Nat) : Bool :=
  match sel with
  | none => true
  | some i => decide (len ≤ i)

/-- The selection of the view `kill_selected` dispatches on is invalid. -/
def activeSelectionInvalid (a : App) : Bool :=
  match a.current_view with
  | .ProcessList => selectionInvalid a.selected_idx a.port_processes.length
  | .FilterManagement =>
      selectionInvalid a.filter_selected_idx a.config.filtered_process_names.length

/-! ### Helper lemmas -/

/-- `refreshApp` written as a single record: the two selection updates are
independent of each other. -/
theorem refreshApp_eq (raw : List PortProcess) (a : App) :
    refreshApp raw a = { a with
      port_processes := (get_port_processes raw).filter (filterKeep a.config),
      selected_idx :=
        if !((get_port_processes raw).filter (filterKeep a.config)).isEmpty && a.selected_idx.isNone
        then some 0 else a.selected_idx,
      filter_selected_idx :=
        if !a.config.filtered_process_names.isEmpty && a.filter_selected_idx.isNone
        then some 0 else a.filter_selected_idx } := by
  unfold refreshApp
  dsimp only
  cases h1 : (!((get_port_processes raw).filter (filterKeep a.config)).isEmpty && a.selected_idx.isNone) <;>
    cases h2 : (!a.config.filtered_process_names.isEmpty && a.filter_selected_idx.isNone) <;>
    simp [h1, h2]

theorem refreshApp_config (raw : List PortProcess) (a : App) :
    (refreshApp raw a).config = a.config := by
  rw [refreshApp_eq]

theorem refreshApp_port_processes (raw : List PortProcess) (a : App) :
    (refreshApp raw a).port_processes =
      (get_port_processes raw).filter (filterKeep a.config) := by
  rw [refreshApp_eq]

theorem refreshApp_selected_idx (raw : List PortProcess) (a : App) :
    (refreshApp raw a).selected_idx =
      if !((get_port_processes raw).filter (filterKeep a.config)).isEmpty && a.selected_idx.isNone
      then some 0 else a.selected_idx := by
  rw [refreshApp_eq]

theorem refreshApp_filter_selected_idx (raw : List PortProcess) (a : App) :
    (refreshApp raw a).filter_selected_idx =
      if !a.config.filtered_process_names.isEmpty && a.filter_selected_idx.isNone
      then some 0 else a.filter_selected_idx := by
  rw [refreshApp_eq]

theorem refreshApp_popup (raw : List PortProcess) (a : App) :
    (refreshApp raw a).show_add_filter_popup = a.show_add_filter_popup := by
  rw [refreshApp_eq]

theorem refreshApp_input (raw : List PortProcess) (a : App) :
    (refreshApp raw a).add_filter_input = a.add_filter_input := by
  rw [refreshApp_eq]

theorem refreshApp_view (raw : List PortProcess) (a : App) :
    (refreshApp raw a).current_view = a.current_view := by
  rw [refreshApp_eq]

theorem mem_insertByPort {z x : PortProcess} {l : List PortProcess} :
    z ∈ insertByPort x l ↔ z = x ∨ z ∈ l := by
  induction l with
  | nil => simp [insertByPort]
  | cons y ys ih =>
    unfold insertByPort
    split
    · simp [List.mem_cons]
    · simp only [List.mem_cons, ih]
      tauto

theorem pairwise_insertByPort {x : PortProcess} {l : List PortProcess}
    (h : l.Pairwise portLE) : (insertByPort x l).Pairwise portLE := by
  induction l with
  | nil => simp [insertByPort]
  | cons y ys ih =>
    rcases List.pairwise_cons.mp h with ⟨hy, hys⟩
    unfold insertByPort
    split
    case isTrue hle =>
      refine List.pairwise_cons.mpr ⟨?_, h⟩
      intro z hz
      rcases List.mem_cons.mp hz with rfl | hz
      · exact hle
      · exact le_trans hle (hy z hz)
    case isFalse hgt =>
      refine List.pairwise_cons.mpr ⟨?_, ih hys⟩
      intro z hz
      rcases mem_insertByPort.mp hz with rfl | hz
      · exact le_of_not_le hgt
      · exact hy z hz

theorem pairwise_sortByPort (l : List PortProcess) : (sortByPort l).Pairwise portLE := by
  induction l with
  | nil => simp [sortByPort]
  | cons x xs ih => exact pairwise_insertByPort ih

theorem mem_sortByPort {z : PortProcess} {l : List PortProcess} :
    z ∈ sortByPort l ↔ z ∈ l := by
  induction l with
  | nil => simp [sortByPort]
  | cons x xs ih =>
    show z ∈ insertByPort x (sortByPort xs) ↔ _
    rw [mem_insertByPort, ih]
    simp [List.mem_cons, eq_comm]

/-- Inserting never disturbs the sublist of elements satisfying a predicate
that pins the `port` key: the new element lands in front of every element
with the same port. -/
theorem filter_insertByPort (p : PortProcess → Bool) (v : Nat)
    (hp : ∀ b, p b = true → b.port = v) (x : PortProcess) (l : List PortProcess) :
    (insertByPort x l).filter p = if p x then x :: l.filter p else l.filter p := by
  induction l with
  | nil =>
    cases hx : p x <;> simp [insertByPort, List.filter, hx]
  | cons y ys ih =>
    unfold insertByPort
    split
    case isTrue hle =>
      cases hx : p x <;> simp [List.filter_cons, hx]
    case isFalse hgt =>
      rw [List.filter_cons, List.filter_cons, ih]
      cases hx : p x with
      | false => simp [hx]
      | true =>
        cases hy : p y with
        | false => simp [hx, hy]
        | true =>
          exact absurd (le_of_eq ((hp x hx).trans (hp y hy).symm)) hgt

/-- Stability of `sortByPort`: the subsequence of elements with any fixed
port value is exactly their subsequence in the input. -/
theorem filter_sortByPort (p : PortProcess → Bool) (v : Nat)
    (hp : ∀ b, p b = true → b.port = v) (l : List PortProcess) :
    (sortByPort l).filter p = l.filter p := by
  induction l with
  | nil => rfl
  | cons x xs ih =>
    show (insertByPort x (sortByPort xs)).filter p = _
    rw [filter_insertByPort p v hp, ih, List.filter_cons]


/-- A refresh always leaves both selections `some` wherever the corresponding
list is non-empty. -/
theorem selGood_refreshApp (raw : List PortProcess) (a : App) :
    SelGood (refreshApp raw a) := by
  rw [refreshApp_eq]
  constructor
  · intro h
    dsimp only at h ⊢
    rw [h]
    cases hn : a.selected_idx.isNone
    · simp [hn]
    · simp [hn]
  · intro h
    dsimp only at h ⊢
    rw [h]
    cases hn : a.filter_selected_idx.isNone
    · simp [hn]
    · simp [hn]

/-! Branch characterizations of `kill_selected` and
`filter_selected_process`. -/

theorem kill_pl_none (scan : Except Unit (List PortProcess)) (killOk saveOk : Bool)
    (a : App) (hv : a.current_view = .ProcessList) (hs : a.selected_idx = none) :
    kill_selected scan killOk saveOk a = ⟨a, .ok (), Effects.nil⟩ := by
  simp only [kill_selected, hv, hs]

theorem kill_pl_oob (scan : Except Unit (List PortProcess)) (killOk saveOk : Bool)
    (a : App) (i : Nat) (hv : a.current_view = .ProcessList)
    (hs : a.selected_idx = some i) (hp : a.port_processes[i]? = none) :
    kill_selected scan killOk saveOk a = ⟨a, .ok (), Effects.nil⟩ := by
  simp only [kill_selected, hv, hs, hp]

theorem kill_pl_fail (scan : Except Unit (List PortProcess)) (saveOk : Bool)
    (a : App) (i : Nat) (p : PortProcess) (hv : a.current_view = .ProcessList)
    (hs : a.selected_idx = some i) (hp : a.port_processes[i]? = some p) :
    kill_selected scan false saveOk a =
      ⟨a, .error .killFailure, ⟨[p.pid], 0, 0⟩⟩ := by
  simp only [kill_selected, hv, hs, hp, Bool.false_eq_true, if_false]

theorem kill_pl_scanfail (killOk : Bool) (saveOk : Bool) (a : App) (i : Nat)
    (p : PortProcess) (e : Unit) (hv : a.current_view = .ProcessList)
    (hs : a.selected_idx = some i) (hp : a.port_processes[i]? = some p) :
    kill_selected (.error e) true saveOk a =
      ⟨a, .error .scanFailure, ⟨[p.pid], 0, 1⟩⟩ := by
  simp only [kill_selected, hv, hs, hp, if_true, refresh_processes]

theorem kill_pl_ok (raw : List PortProcess) (saveOk : Bool) (a : App) (i : Nat)
    (p : PortProcess) (hv : a.current_view = .ProcessList)
    (hs : a.selected_idx = some i) (hp : a.port_processes[i]? = some p) :
    kill_selected (.ok raw) true saveOk a =
      ⟨repairSel i (refreshApp raw a), .ok (), ⟨[p.pid], 0, 1⟩⟩ := by
  simp only [kill_selected, hv, hs, hp, if_true, refresh_processes]

theorem kill_fm_none (scan : Except Unit (List PortProcess)) (killOk saveOk : Bool)
    (a : App) (hv : a.current_view = .FilterManagement)
    (hs : a.filter_selected_idx = none) :
    kill_selected scan killOk saveOk a = ⟨a, .ok (), Effects.nil⟩ := by
  simp only [kill_selected, hv, hs]

theorem kill_fm_oob (scan : Except Unit (List PortProcess)) (killOk saveOk : Bool)
    (a : App) (i : Nat) (hv : a.current_view = .FilterManagement)
    (hs : a.filter_selected_idx = some i)
    (hn : a.config.filtered_process_names[i]? = none) :
    kill_selected scan killOk saveOk a = ⟨a, .ok (), Effects.nil⟩ := by
  simp only [kill_selected, hv, hs, hn]

theorem kill_fm_savefail (scan : Except Unit (List PortProcess)) (killOk : Bool)
    (a : App) (i : Nat) (nm : String) (hv : a.current_view = .FilterManagement)
    (hs : a.filter_selected_idx = some i)
    (hn : a.config.filtered_process_names[i]? = some nm) :
    kill_selected scan killOk false a =
      ⟨{ a with config := remove_filtered_process a.config nm },
       .error .persistFailure, ⟨[], 1, 0⟩⟩ := by
  simp only [kill_selected, hv, hs, hn, Bool.false_eq_true, if_false]

theorem kill_fm_scanfail (killOk : Bool) (a : App) (i : Nat) (nm : String) (e : Unit)
    (hv : a.current_view = .FilterManagement) (hs : a.filter_selected_idx = some i)
    (hn : a.config.filtered_process_names[i]? = some nm) :
    kill_selected (.error e) killOk true a =
      ⟨repairFilterSel i { a with config := remove_filtered_process a.config nm },
       .error .scanFailure, ⟨[], 1, 1⟩⟩ := by
  simp only [kill_selected, hv, hs, hn, if_true, refresh_processes]

theorem kill_fm_ok (raw : List PortProcess) (killOk : Bool) (a : App) (i : Nat)
    (nm : String) (hv : a.current_view = .FilterManagement)
    (hs : a.filter_selected_idx = some i)
    (hn : a.config.filtered_process_names[i]? = some nm) :
    kill_selected (.ok raw) killOk true a =
      ⟨refreshApp raw (repairFilterSel i { a with config := remove_filtered_process a.config nm }),
       .ok (), ⟨[], 1, 1⟩⟩ := by
  simp only [kill_selected, hv, hs, hn, if_true, refresh_processes]

theorem repairSel_port_processes (selected : Nat) (a1 : App) :
    (repairSel selected a1).port_processes = a1.port_processes := by
  unfold repairSel
  split
  · rfl
  · split <;> rfl

theorem repairSel_config (selected : Nat) (a1 : App) :
    (repairSel selected a1).config = a1.config := by
  unfold repairSel
  split
  · rfl
  · split <;> rfl

theorem repairSel_selected_idx (selected : Nat) (a1 : App) :
    (repairSel selected a1).selected_idx =
      (if a1.port_processes.isEmpty = true then none
       else if a1.port_processes.length ≤ selected then
         some (a1.port_processes.length - 1)
       else a1.selected_idx) := by
  unfold repairSel
  split
  · simp_all
  · split <;> simp_all

theorem repairFilterSel_config (selected : Nat) (a1 : App) :
    (repairFilterSel selected a1).config = a1.config := by
  unfold repairFilterSel
  split
  · rfl
  · split <;> rfl

theorem selGood_repairSel (selected : Nat) (a1 : App) (h : SelGood a1) :
    SelGood (repairSel selected a1) := by
  unfold repairSel
  split
  case isTrue he =>
    refine ⟨?_, h.2⟩
    intro hc
    dsimp only at hc
    rw [he] at hc
    cases hc
  case isFalse he =>
    split
    case isTrue hlen => exact ⟨fun _ => rfl, h.2⟩
    case isFalse hlen => exact h

theorem selGood_repairFilterSel (selected : Nat) (a1 : App) (h : SelGood a1) :
    SelGood (repairFilterSel selected a1) := by
  unfold repairFilterSel
  split
  case isTrue he =>
    refine ⟨h.1, ?_⟩
    intro hc
    dsimp only at hc
    rw [he] at hc
    cases hc
  case isFalse he =>
    split
    case isTrue hlen => exact ⟨h.1, fun _ => rfl⟩
    case isFalse hlen => exact h

theorem selGood_kill_selected (scan : Except Unit (List PortProcess))
    (killOk saveOk : Bool) (a : App) (h : SelGood a) :
    SelGood (kill_selected scan killOk saveOk a).app := by
  cases hv : a.current_view
  case ProcessList =>
    cases hs : a.selected_idx
    case none => rw [kill_pl_none scan killOk saveOk a hv hs]; exact h
    case some selected =>
      cases hp : a.port_processes[selected]?
      case none => rw [kill_pl_oob scan killOk saveOk a selected hv hs hp]; exact h
      case some process =>
        cases killOk
        case false => rw [kill_pl_fail scan saveOk a selected process hv hs hp]; exact h
        case true =>
          cases scan
          case error e =>
            rw [kill_pl_scanfail true saveOk a selected process e hv hs hp]
            exact h
          case ok raw =>
            rw [kill_pl_ok raw saveOk a selected process hv hs hp]
            exact selGood_repairSel selected _ (selGood_refreshApp raw a)
  case FilterManagement =>
    cases hs : a.filter_selected_idx
    case none => rw [kill_fm_none scan killOk saveOk a hv hs]; exact h
    case some selected =>
      cases hn : a.config.filtered_process_names[selected]?
      case none => rw [kill_fm_oob scan killOk saveOk a selected hv hs hn]; exact h
      case some nm =>
        have h1 : SelGood { a with config := remove_filtered_process a.config nm } := by
          refine ⟨h.1, ?_⟩
          intro _
          dsimp only
          rw [hs]
          rfl
        cases saveOk
        case false =>
          rw [kill_fm_savefail scan killOk a selected nm hv hs hn]
          exact h1
        case true =>
          cases scan
          case error e =>
            rw [kill_fm_scanfail killOk a selected nm e hv hs hn]
            exact selGood_repairFilterSel selected _ h1
          case ok raw =>
            rw [kill_fm_ok raw killOk a selected nm hv hs hn]
            exact selGood_refreshApp raw _

theorem selGood_applyStep (s : Step) (a : App) (h : SelGood a) :
    SelGood (applyStep s a) := by
  cases s with
  | refresh scan =>
    cases scan with
    | error e => exact h
    | ok raw => exact selGood_refreshApp raw a
  | killSelected scan killOk saveOk => exact selGood_kill_selected scan killOk saveOk a h

theorem selGood_applySteps (steps : List Step) (a : App) (h : SelGood a) :
    SelGood (applySteps steps a) := by
  induction steps generalizing a with
  | nil => exact h
  | cons s rest ih => exact ih (applyStep s a) (selGood_applyStep s a h)

theorem toggle_config (a : App) :
    (toggle_add_filter_popup a).config = a.config := by
  unfold toggle_add_filter_popup
  dsimp only
  split <;> rfl

theorem toggle_of_popup_true (a : App) (h : a.show_add_filter_popup = true) :
    toggle_add_filter_popup a =
      { a with show_add_filter_popup := false, add_filter_input := "" } := by
  unfold toggle_add_filter_popup
  rw [h]
  rfl

theorem toggle_of_popup_false (a : App) (h : a.show_add_filter_popup = false) :
    toggle_add_filter_popup a = { a with show_add_filter_popup := true } := by
  unfold toggle_add_filter_popup
  rw [h]
  rfl

theorem foldl_add_char_config (l : List Char) (a : App) :
    (l.foldl add_char_to_filter a).config = a.config := by
  induction l generalizing a with
  | nil => rfl
  | cons c cs ih => exact ih _

theorem foldl_add_char_popup (l : List Char) (a : App) :
    (l.foldl add_char_to_filter a).show_add_filter_popup = a.show_add_filter_popup := by
  induction l generalizing a with
  | nil => rfl
  | cons c cs ih => exact ih _

theorem foldl_add_char_input (l : List Char) (a : App) :
    (l.foldl add_char_to_filter a).add_filter_input =
      ⟨a.add_filter_input.data ++ l⟩ := by
  induction l generalizing a with
  | nil =>
    show a.add_filter_input = ⟨a.add_filter_input.data ++ []⟩
    rw [List.append_nil]
  | cons c cs ih =>
    rw [List.foldl_cons, ih]
    show (⟨(a.add_filter_input.push c).data ++ cs⟩ : String) = _
    rw [String.data_push, List.append_assoc]
    rfl

theorem typeString_config (s : String) (a : App) :
    (typeString s a).config = a.config :=
  foldl_add_char_config _ _

theorem typeString_popup (s : String) (a : App) :
    (typeString s a).show_add_filter_popup = a.show_add_filter_popup :=
  foldl_add_char_popup _ _

theorem typeString_input_of_empty (s : String) (a : App)
    (h : a.add_filter_input = "") : (typeString s a).add_filter_input = s := by
  unfold typeString
  rw [foldl_add_char_input, h]
  rfl

theorem add_filtered_process_mem (c : Config) (nm : String)
    (h : nm ∈ c.filtered_process_names) :
    add_filtered_process c nm = (c, false) := by
  unfold add_filtered_process
  rw [if_pos h]

theorem add_filtered_process_not_mem (c : Config) (nm : String)
    (h : nm ∉ c.filtered_process_names) :
    add_filtered_process c nm =
      ({ c with filtered_process_names := c.filtered_process_names ++ [nm] }, true) := by
  unfold add_filtered_process
  rw [if_neg h]

theorem save_filter_added (raw : List PortProcess) (a : App)
    (h1 : strTrim a.add_filter_input ≠ "")
    (h2 : strTrim a.add_filter_input ∉ a.config.filtered_process_names) :
    save_filter (.ok raw) true a =
      ⟨toggle_add_filter_popup (refreshApp raw { a with config := { a.config with
          filtered_process_names :=
            a.config.filtered_process_names ++ [strTrim a.add_filter_input] } }),
       .ok (), ⟨[], 1, 1⟩⟩ := by
  unfold save_filter
  dsimp only
  rw [if_neg h1, add_filtered_process_not_mem a.config _ h2]
  rfl

theorem save_filter_dup (raw : List PortProcess) (a : App)
    (h1 : strTrim a.add_filter_input ≠ "")
    (h2 : strTrim a.add_filter_input ∈ a.config.filtered_process_names) :
    save_filter (.ok raw) true a =
      ⟨toggle_add_filter_popup (refreshApp raw a), .ok (), ⟨[], 0, 1⟩⟩ := by
  unfold save_filter
  dsimp only
  rw [if_neg h1, add_filtered_process_mem a.config _ h2]
  rfl

theorem fsp_none (scan : Except Unit (List PortProcess)) (saveOk : Bool) (a : App)
    (hs : a.selected_idx = none) :
    filter_selected_process scan saveOk a = ⟨a, .ok (), Effects.nil⟩ := by
  simp only [filter_selected_process, hs]

theorem fsp_oob (scan : Except Unit (List PortProcess)) (saveOk : Bool) (a : App)
    (i : Nat) (hs : a.selected_idx = some i) (hp : a.port_processes[i]? = none) :
    filter_selected_process scan saveOk a = ⟨a, .ok (), Effects.nil⟩ := by
  simp only [filter_selected_process, hs, hp]

/-! ### Claim theorems -/

/-- **C3**: the filter step retains a binding iff its port is within
`[min_port, max_port]` and no configured entry is a case-sensitive substring
of its process name (containment, not equality). -/
theorem C3_filter_retention (bindings : List PortProcess) (c : Config) (b : PortProcess) :
    b ∈ bindings.filter (filterKeep c) ↔
      b ∈ bindings ∧ ((c.min_port ≤ b.port ∧ b.port ≤ c.max_port) ∧
        ∀ f ∈ c.filtered_process_names, ¬ (f.toList <:+: b.name.toList)) := by
  rw [List.mem_filter]
  simp only [filterKeep, Bool.and_eq_true, decide_eq_true_eq, Bool.not_eq_true',
    List.any_eq_false, decide_eq_false_iff_not, and_assoc]

/-- **C3** witness: with `"Browser"` excluded, `"MyBrowserHelper"` is filtered
out (containment) while `"browser"` survives (case-sensitivity). -/
theorem C3_filter_retention_witness :
    bindB ∉ ([bindB, bindb].filter (filterKeep cfgB)) ∧
    bindb ∈ ([bindB, bindb].filter (filterKeep cfgB)) := by
  constructor
  · intro hmem
    have h := (C3_filter_retention [bindB, bindb] cfgB bindB).mp hmem
    exact h.2.2 "Browser" (by decide) (by decide)
  · exact (C3_filter_retention [bindB, bindb] cfgB bindb).mpr (by decide)

/-- **C8**: the display list produced by a refresh is sorted ascending by
port, and for every port value the sublist of bindings on that port equals
their sublist in the (filtered) scan output, i.e. equal-port bindings keep
their discovery order (stable sort). -/
theorem C8_display_sorted_stable (raw : List PortProcess) (a : App) :
    (refreshApp raw a).port_processes.Pairwise portLE ∧
    ∀ v : Nat, (refreshApp raw a).port_processes.filter (fun b => b.port == v) =
      (raw.filter (filterKeep a.config)).filter (fun b => b.port == v) := by
  constructor
  · rw [refreshApp_port_processes]
    exact (pairwise_sortByPort raw).sublist (List.filter_sublist _)
  · intro v
    rw [refreshApp_port_processes]
    rw [List.filter_filter, List.filter_filter]
    exact filter_sortByPort _ v
      (fun b hb => by
        simp only [Bool.and_eq_true, beq_iff_eq] at hb
        exact hb.1) raw

/-- **C8** witness: a concrete out-of-order scan with a duplicated port. -/
theorem C8_display_sorted_stable_witness :
    (refreshApp mixedRaw (App.new cfg0)).port_processes.Pairwise portLE ∧
    (refreshApp mixedRaw (App.new cfg0)).port_processes.filter (fun b => b.port == 3000) =
      (mixedRaw.filter (filterKeep cfg0)).filter (fun b => b.port == 3000) := by
  have h := C8_display_sorted_stable mixedRaw (App.new cfg0)
  exact ⟨h.1, h.2 3000⟩

/-- **C1** (amended): starting from the initial session (a fresh `App` whose
first `refresh_processes` succeeded), every sequence of
`Refresh`/`KillSelected`/`RemoveSelectedFilter` transitions keeps each
selection `some` whenever its corresponding list is non-empty (a selection is
`none` only if its list is empty).  The other half of the claimed invariant
— selection `none` when the list is empty, and in bounds otherwise — does
not hold; see the counterexample. -/
theorem C1_selection_invariant (cfg : Config) (raw : List PortProcess)
    (steps : List Step) :
    SelGood (applySteps steps (refreshApp raw (App.new cfg))) :=
  selGood_applySteps steps _ (selGood_refreshApp raw (App.new cfg))

/-- **C1** witness: a concrete run of the invariant theorem. -/
theorem C1_selection_invariant_witness :
    SelGood (applySteps [Step.refresh (.ok [pb1]), Step.killSelected (.ok []) true true]
      (refreshApp [pb1] (App.new cfg0))) :=
  C1_selection_invariant cfg0 [pb1]
    [Step.refresh (.ok [pb1]), Step.killSelected (.ok []) true true]

/-- **C1** counterexample: from the initial session, a refresh that finds one
process (selection becomes `some 0`) followed by a refresh that finds none
leaves the process list empty while the selection is still `some 0`, so
"selection is `None` iff the list is empty" is violated by a reachable
state. -/
theorem C1_counterexample :
    (applySteps [Step.refresh (.ok [pb1]), Step.refresh (.ok [])]
      (App.new cfg0)).port_processes = [] ∧
    (applySteps [Step.refresh (.ok [pb1]), Step.refresh (.ok [])]
      (App.new cfg0)).selected_idx = some 0 := by
  decide

/-- **C2** (amended): a successful `Refresh` sets the process selection to
`some 0` when it was `none` and the new list is non-empty, and leaves it
unchanged in every other case — in particular a previously valid in-range
selection is kept (not reset to 0), but a selection is never reset to `none`
when the list becomes empty. -/
theorem C2_refresh_selection (raw : List PortProcess) (a : App) :
    refresh_processes (.ok raw) a = .ok (refreshApp raw a) ∧
    (a.selected_idx = none → (refreshApp raw a).port_processes ≠ [] →
      (refreshApp raw a).selected_idx = some 0) ∧
    (a.selected_idx = none → (refreshApp raw a).port_processes = [] →
      (refreshApp raw a).selected_idx = none) ∧
    (∀ i, a.selected_idx = some i → (refreshApp raw a).selected_idx = some i) := by
  refine ⟨rfl, ?_, ?_, ?_⟩
  · intro hn hne
    rw [refreshApp_port_processes] at hne
    rw [refreshApp_selected_idx, hn]
    cases hL : ((get_port_processes raw).filter (filterKeep a.config)).isEmpty
    · simp [hL]
    · exact absurd (List.isEmpty_iff.mp hL) hne
  · intro hn hem
    rw [refreshApp_port_processes] at hem
    rw [refreshApp_selected_idx, hn, hem]
    simp
  · intro i hi
    rw [refreshApp_selected_idx, hi]
    simp

/-- **C2** witness: the spec's own example — a non-empty list, selection
index 2, and a refresh that keeps the list at length 3 leaves the selection
at 2. -/
theorem C2_refresh_selection_witness :
    (refreshApp (fiveProcs.take 3) appThree).selected_idx = some 2 ∧
    (refreshApp (fiveProcs.take 3) appThree).port_processes.length = 3 :=
  ⟨(C2_refresh_selection (fiveProcs.take 3) appThree).2.2.2 2 rfl, by decide⟩

/-- **C2** counterexample: a refresh whose re-derived list is empty does NOT
set the selection to `none` — it stays `some 0`, contradicting "if the
re-derived list is empty the selection becomes None". -/
theorem C2_counterexample :
    refresh_processes (.ok []) appOne = .ok (refreshApp [] appOne) ∧
    (refreshApp [] appOne).port_processes = [] ∧
    (refreshApp [] appOne).selected_idx = some 0 :=
  ⟨rfl, by decide, by decide⟩

/-- **C4**: with a valid process selection, a failing kill surfaces
`KillFailure` to the caller, performs no scan (`scans = 0`), and leaves the
whole session state — list and both selections included — exactly as it
was. -/
theorem C4_kill_failure_preserves_state (scan : Except Unit (List PortProcess))
    (saveOk : Bool) (a : App) (i : Nat) (p : PortProcess)
    (hv : a.current_view = .ProcessList) (hs : a.selected_idx = some i)
    (hp : a.port_processes[i]? = some p) :
    kill_selected scan false saveOk a =
      ⟨a, .error .killFailure, ⟨[p.pid], 0, 0⟩⟩ :=
  kill_pl_fail scan saveOk a i p hv hs hp

/-- **C4** witness: concrete failing kill on a one-element list. -/
theorem C4_kill_failure_preserves_state_witness :
    kill_selected (.ok []) false true appOne =
      ⟨appOne, .error .killFailure, ⟨[1], 0, 0⟩⟩ :=
  C4_kill_failure_preserves_state (.ok []) true appOne 0 pb1 rfl rfl rfl

/-- **C6**: with a valid process selection, a successful kill performs a
refresh (one scan, result `Ok`) and repairs the selection over the new list:
`none` if the list is now empty, clamped to `length - 1` if the captured
index fell off the end, unchanged otherwise. -/
theorem C6_kill_success_repair (raw : List PortProcess) (saveOk : Bool) (a : App)
    (i : Nat) (p : PortProcess) (hv : a.current_view = .ProcessList)
    (hs : a.selected_idx = some i) (hp : a.port_processes[i]? = some p) :
    (kill_selected (.ok raw) true saveOk a).result = .ok () ∧
    (kill_selected (.ok raw) true saveOk a).effects = ⟨[p.pid], 0, 1⟩ ∧
    (kill_selected (.ok raw) true saveOk a).app.port_processes =
      (refreshApp raw a).port_processes ∧
    (kill_selected (.ok raw) true saveOk a).app.selected_idx =
      (if (refreshApp raw a).port_processes.isEmpty = true then none
       else if (refreshApp raw a).port_processes.length ≤ i then
         some ((refreshApp raw a).port_processes.length - 1)
       else some i) := by
  rw [kill_pl_ok raw saveOk a i p hv hs hp]
  refine ⟨rfl, rfl, repairSel_port_processes i _, ?_⟩
  rw [repairSel_selected_idx]
  have hsel : (refreshApp raw a).selected_idx = some i := by
    rw [refreshApp_selected_idx, hs]
    simp
  rw [hsel]

/-- **C6** witness: the spec's tail-shrink example — a list of length 5 with
selection 4 shrinking to length 4 yields selection 3, after one scan. -/
theorem C6_kill_success_repair_witness :
    (kill_selected (.ok fourProcs) true true appFive).app.selected_idx = some 3 ∧
    (kill_selected (.ok fourProcs) true true appFive).app.port_processes.length = 4 ∧
    (kill_selected (.ok fourProcs) true true appFive).effects.scans = 1 := by
  have h := C6_kill_success_repair fourProcs true appFive 4 ⟨5, "p4", 3004, ""⟩
    rfl rfl (by decide)
  revert h
  decide

theorem selectionInvalid_cases {sel : Option Nat} {len : Nat}
    (h : selectionInvalid sel len = true) :
    sel = none ∨ ∃ i, sel = some i ∧ len ≤ i := by
  cases sel with
  | none => exact Or.inl rfl
  | some i =>
    refine Or.inr ⟨i, rfl, ?_⟩
    exact of_decide_eq_true h

/-- **C9**: when the dispatched-on selection is `none` or at/past the end of
its list, `kill_selected` is a total no-op returning `Ok` with no external
effect, and likewise `filter_selected_process` when the process selection
does not address an element. -/
theorem C9_invalid_selection_noop (a : App) (scan : Except Unit (List PortProcess))
    (killOk saveOk : Bool) :
    (activeSelectionInvalid a = true →
      kill_selected scan killOk saveOk a = ⟨a, .ok (), Effects.nil⟩) ∧
    (selectionInvalid a.selected_idx a.port_processes.length = true →
      filter_selected_process scan saveOk a = ⟨a, .ok (), Effects.nil⟩) := by
  constructor
  · intro h
    cases hv : a.current_view
    case ProcessList =>
      rw [activeSelectionInvalid, hv] at h
      rcases selectionInvalid_cases h with hs | ⟨i, hs, hlen⟩
      · exact kill_pl_none scan killOk saveOk a hv hs
      · exact kill_pl_oob scan killOk saveOk a i hv hs (List.getElem?_eq_none hlen)
    case FilterManagement =>
      rw [activeSelectionInvalid, hv] at h
      rcases selectionInvalid_cases h with hs | ⟨i, hs, hlen⟩
      · exact kill_fm_none scan killOk saveOk a hv hs
      · exact kill_fm_oob scan killOk saveOk a i hv hs (List.getElem?_eq_none hlen)
  · intro h
    rcases selectionInvalid_cases h with hs | ⟨i, hs, hlen⟩
    · exact fsp_none scan saveOk a hs
    · exact fsp_oob scan saveOk a i hs (List.getElem?_eq_none hlen)

/-- **C9** witness: a stale out-of-range selection (index 5 over a length-1
list): both operations return the state untouched with no effects. -/
theorem C9_invalid_selection_noop_witness :
    kill_selected (.ok []) true true appStale = ⟨appStale, .ok (), Effects.nil⟩ ∧
    filter_selected_process (.ok []) true appStale = ⟨appStale, .ok (), Effects.nil⟩ :=
  ⟨(C9_invalid_selection_noop appStale (.ok []) true true).1 (by decide),
   (C9_invalid_selection_noop appStale (.ok []) true true).2 (by decide)⟩

/-- **C10**: removing the selected filter name removes every entry
value-equal to it (the list is `retain`-filtered on inequality), so after
one `RemoveSelectedFilter` the name occurs zero times even if it was
duplicated — for every kill/save/scan outcome. -/
theorem C10_remove_deletes_all (scan : Except Unit (List PortProcess))
    (killOk saveOk : Bool) (a : App) (i : Nat) (nm : String)
    (hv : a.current_view = .FilterManagement) (hs : a.filter_selected_idx = some i)
    (hn : a.config.filtered_process_names[i]? = some nm) :
    (kill_selected scan killOk saveOk a).app.config.filtered_process_names =
      a.config.filtered_process_names.filter (fun n => n != nm) ∧
    (kill_selected scan killOk saveOk a).app.config.filtered_process_names.count nm = 0 := by
  have hfil : (kill_selected scan killOk saveOk a).app.config.filtered_process_names =
      a.config.filtered_process_names.filter (fun n => n != nm) := by
    cases saveOk
    case false =>
      rw [kill_fm_savefail scan killOk a i nm hv hs hn]
      rfl
    case true =>
      cases scan
      case error e =>
        rw [kill_fm_scanfail killOk a i nm e hv hs hn, repairFilterSel_config]
        rfl
      case ok raw =>
        rw [kill_fm_ok raw killOk a i nm hv hs hn, refreshApp_config,
          repairFilterSel_config]
        rfl
  refine ⟨hfil, ?_⟩
  rw [hfil, List.count_eq_zero]
  intro hmem
  have hne := (List.mem_filter.mp hmem).2
  simp at hne

/-- **C10** witness: the duplicated name `"node"` (twice in the list) is gone
entirely after one remove. -/
theorem C10_remove_deletes_all_witness :
    (kill_selected (.ok []) true true appDupFilters).app.config.filtered_process_names = ["x"] ∧
    (kill_selected (.ok []) true true appDupFilters).app.config.filtered_process_names.count "node" = 0 := by
  have h := C10_remove_deletes_all (.ok []) true true appDupFilters 0 "node" rfl rfl rfl
  revert h
  decide

/-- **C5**: evaluation of the code at the failing input.  In `run_app` every
intent handler is invoked with `?`, so the typed `KillFailure` from a single
failed kill propagates out of the event loop: the run aborts with the error
and the next queued intent (a refresh here) is never processed — the session
terminates instead of rendering a message and continuing. -/
theorem C5_kill_failure_aborts_loop :
    runSteps [Step.killSelected (.ok []) false true, Step.refresh (.ok [pb1])] appOne =
      .error .killFailure := by
  decide

theorem save_filter_added_state (raw : List PortProcess) (a : App) (nm : String)
    (hin : strTrim a.add_filter_input = nm) (hne : nm ≠ "")
    (hnm : nm ∉ a.config.filtered_process_names)
    (hpop : a.show_add_filter_popup = true) :
    (save_filter (.ok raw) true a).effects.saves = 1 ∧
    (save_filter (.ok raw) true a).app.config.filtered_process_names =
      a.config.filtered_process_names ++ [nm] ∧
    (save_filter (.ok raw) true a).app.add_filter_input = "" ∧
    (save_filter (.ok raw) true a).app.show_add_filter_popup = false := by
  have h1 : strTrim a.add_filter_input ≠ "" := by rw [hin]; exact hne
  have h2 : strTrim a.add_filter_input ∉ a.config.filtered_process_names := by
    rw [hin]; exact hnm
  rw [save_filter_added raw a h1 h2]
  refine ⟨rfl, ?_, ?_, ?_⟩
  · show (toggle_add_filter_popup _).config.filtered_process_names = _
    rw [toggle_config, refreshApp_config]
    dsimp only
    rw [hin]
  · show (toggle_add_filter_popup _).add_filter_input = ""
    rw [toggle_of_popup_true _ (by rw [refreshApp_popup]; exact hpop)]
  · show (toggle_add_filter_popup _).show_add_filter_popup = false
    rw [toggle_of_popup_true _ (by rw [refreshApp_popup]; exact hpop)]

theorem save_filter_dup_count (raw : List PortProcess) (a2 : App) (nm : String)
    (hin : strTrim a2.add_filter_input = nm) (hne : nm ≠ "")
    (hmem : nm ∈ a2.config.filtered_process_names)
    (hcount : a2.config.filtered_process_names.count nm = 1) :
    (save_filter (.ok raw) true a2).effects.saves = 0 ∧
    (save_filter (.ok raw) true a2).app.config.filtered_process_names.count nm = 1 := by
  have h1 : strTrim a2.add_filter_input ≠ "" := by rw [hin]; exact hne
  have h2 : strTrim a2.add_filter_input ∈ a2.config.filtered_process_names := by
    rw [hin]; exact hmem
  rw [save_filter_dup raw a2 h1 h2]
  refine ⟨rfl, ?_⟩
  show (toggle_add_filter_popup (refreshApp raw a2)).config.filtered_process_names.count nm = 1
  rw [toggle_config, refreshApp_config]
  exact hcount

/-- **C7**: adding an already-present name via `add_filtered_process` leaves
the config unchanged and performs no write; submitting the same non-empty
trimmed popup input twice (reopening the popup and retyping it in between)
writes once, does not write the second time, and leaves the name exactly
once in `filtered_process_names`. -/
theorem C7_no_duplicate_add :
    (∀ (c : Config) (nm : String), nm ∈ c.filtered_process_names →
      add_filtered_process c nm = (c, false)) ∧
    (∀ (s : String) (a : App) (raw1 raw2 : List PortProcess),
      a.show_add_filter_popup = true → a.add_filter_input = s → strTrim s ≠ "" →
      strTrim s ∉ a.config.filtered_process_names →
      (save_filter (.ok raw1) true a).effects.saves = 1 ∧
      (save_filter (.ok raw2) true (typeString s
        (toggle_add_filter_popup (save_filter (.ok raw1) true a).app))).effects.saves = 0 ∧
      (save_filter (.ok raw2) true (typeString s
        (toggle_add_filter_popup (save_filter (.ok raw1) true a).app))).app.config.filtered_process_names.count (strTrim s) = 1) := by
  constructor
  · exact add_filtered_process_mem
  · intro s a raw1 raw2 hpop hinp htr hnm
    have hin : strTrim a.add_filter_input = strTrim s := by rw [hinp]
    obtain ⟨hsave1, hfil1, hinp1, hpop1⟩ :=
      save_filter_added_state raw1 a (strTrim s) hin htr hnm hpop
    refine ⟨hsave1, ?_⟩
    have htog := toggle_of_popup_false (save_filter (.ok raw1) true a).app hpop1
    have hTin : (typeString s (toggle_add_filter_popup
        (save_filter (.ok raw1) true a).app)).add_filter_input = s := by
      rw [htog]
      exact typeString_input_of_empty s _ hinp1
    have hTcfg : (typeString s (toggle_add_filter_popup
        (save_filter (.ok raw1) true a).app)).config.filtered_process_names =
        a.config.filtered_process_names ++ [strTrim s] := by
      rw [typeString_config, toggle_config, hfil1]
    have hcnt : (typeString s (toggle_add_filter_popup
        (save_filter (.ok raw1) true a).app)).config.filtered_process_names.count (strTrim s) = 1 := by
      rw [hTcfg, List.count_append, List.count_eq_zero.mpr hnm]
      simp
    have hmemT : strTrim s ∈ (typeString s (toggle_add_filter_popup
        (save_filter (.ok raw1) true a).app)).config.filtered_process_names := by
      rw [hTcfg]
      simp
    have hTin' : strTrim (typeString s (toggle_add_filter_popup
        (save_filter (.ok raw1) true a).app)).add_filter_input = strTrim s := by
      rw [hTin]
    exact save_filter_dup_count raw2 _ (strTrim s) hTin' htr hmemT hcnt

/-- **C7** witness: submitting `" node "` (trimmed to `"node"`) twice from a
filterless config results in `"node"` occurring exactly once, with one write
on the first submit and none on the second. -/
theorem C7_no_duplicate_add_witness :
    add_filtered_process ⟨1024, 49151, ["node"]⟩ "node" = (⟨1024, 49151, ["node"]⟩, false) ∧
    (save_filter (.ok []) true (typeString " node "
      (toggle_add_filter_popup (save_filter (.ok []) true appPopup).app))).app.config.filtered_process_names.count "node" = 1 := by
  constructor
  · exact C7_no_duplicate_add.1 _ "node" (by decide)
  · have h := C7_no_duplicate_add.2 " node " appPopup [] [] rfl rfl (by decide) (by decide)
    revert h
    decide
